import Mathlib

/-!
# Verification of the PDF-Processor discrepancy-detection core

Shallow embedding of the invoice discrepancy-detection engine:

* `lib/statisticsCalculator.js` — `calculateStats`, `normalizeItemDescription`,
  `calculateItemAverages`, `calculateVendorAverages`, `updateStatistics`;
* `lib/discrepancyDetector.js` — `checkValue`, `detectDiscrepancies`, `DEFAULT_CONFIG`;
* `lib/dataStore.js` — `loadHistory` (file system and `JSON.parse` abstracted as
  explicit parameters);
* `invoiceParser.js` — `extractLineItems` and the two line-item regular expressions
  (embedded as backtracking matchers over `List Char`).

JavaScript numbers are modelled as exact rationals (`ℚ`); `Math.sqrt` is kept
abstract as a function parameter `sqrtF : ℚ → ℚ` (instantiated with the computable
`Rat.sqrt` in concrete computations), and JS `null`/`undefined` fields are
modelled as `Option`.
-/

/- The core `Rat` field operations are sealed (`irreducible`); unseal them so
that concrete rational computations can be settled by `decide` / `rfl`. -/
unseal Rat.add Rat.sub Rat.mul Rat.inv Rat.ofScientific

namespace PDFProcessor

/-! ## Shared character classes (JS `\s`, `\w`, lower-casing) -/

/-- ASCII part of the JS `\s` whitespace class (space, tab, LF, CR, VT, FF).
The inputs handled by this repository are ASCII. -/
def isJsWs (c : Char) : Bool :=
  c = ' ' || c = '\t' || c = '\n' || c = '\r' || c = '\x0b' || c = '\x0c'

/-- JS `\w` word class: `[A-Za-z0-9_]`. -/
def isWordChar (c : Char) : Bool :=
  c.isAlphanum || c = '_'

/-- JS `String.prototype.trim`: drop leading and trailing whitespace. -/
def trimJs (l : List Char) : List Char :=
  ((l.dropWhile isJsWs).reverse.dropWhile isJsWs).reverse

/-- One pass of the replacement `replace(/\s+/g, ' ')`: every maximal whitespace
run becomes a single space.  `prevWs` records whether the previous character was
part of a whitespace run already replaced. -/
def collapseWsGo (prevWs : Bool) : List Char → List Char
  | [] => []
  | c :: rest =>
    if isJsWs c then
      if prevWs then collapseWsGo true rest else ' ' :: collapseWsGo true rest
    else c :: collapseWsGo false rest

/-- `normalizeItemDescription` from `lib/statisticsCalculator.js`:
lower-case, trim, collapse whitespace runs to one space, strip every character
that is neither a word character nor whitespace. -/
def normalizeItemDescription (description : String) : String :=
  ((collapseWsGo false (trimJs (description.toList.map Char.toLower))).filter
      (fun c => isWordChar c || isJsWs c)).asString

/-! ## `calculateStats` -/

/-- Result shape of `calculateStats`. -/
structure Stats where
  mean : ℚ
  stdDev : ℚ
  count : Nat
  deriving Repr, DecidableEq

/-- `calculateStats(values)` from `lib/statisticsCalculator.js`.
`values = none` models a `null`/`undefined` argument (the `!values` guard);
`sqrtF` stands for `Math.sqrt`. -/
def calculateStats (sqrtF : ℚ → ℚ) (values : Option (List ℚ)) : Stats :=
  match values with
  | none => { mean := 0, stdDev := 0, count := 0 }
  | some vs =>
    if vs.length = 0 then { mean := 0, stdDev := 0, count := 0 }
    else
      let count : Nat := vs.length
      let mean : ℚ := vs.foldl (fun sum val => sum + val) 0 / count
      let variance : ℚ := vs.foldl (fun sum val => sum + (val - mean) ^ 2) 0 / count
      { mean := mean, stdDev := sqrtF variance, count := count }

/-! ## Detector configuration -/

/-- The fully-merged configuration used inside `detectDiscrepancies`. -/
structure Config where
  percentageThreshold : ℚ
  stdDevThreshold : ℚ
  mode : String
  minSamples : ℚ
  checkLineItems : Bool
  checkTotals : Bool
  deriving Repr, DecidableEq

/-- `DEFAULT_CONFIG` from `lib/discrepancyDetector.js`. -/
def DEFAULT_CONFIG : Config :=
  { percentageThreshold := 0.15
    stdDevThreshold := 2
    mode := "both"
    minSamples := 3
    checkLineItems := true
    checkTotals := true }

/-- A caller-supplied configuration object: each field may be present or absent
(JS object spread only overrides present keys). -/
structure ConfigOverride where
  percentageThreshold : Option ℚ := none
  stdDevThreshold : Option ℚ := none
  mode : Option String := none
  minSamples : Option ℚ := none
  checkLineItems : Option Bool := none
  checkTotals : Option Bool := none
  deriving Repr, DecidableEq

/-- `const cfg = { ...DEFAULT_CONFIG, ...config }`: a present key wins over the
default, an absent key falls back to `DEFAULT_CONFIG`. -/
def mergeConfig (config : ConfigOverride) : Config :=
  { percentageThreshold := config.percentageThreshold.getD DEFAULT_CONFIG.percentageThreshold
    stdDevThreshold := config.stdDevThreshold.getD DEFAULT_CONFIG.stdDevThreshold
    mode := config.mode.getD DEFAULT_CONFIG.mode
    minSamples := config.minSamples.getD DEFAULT_CONFIG.minSamples
    checkLineItems := config.checkLineItems.getD DEFAULT_CONFIG.checkLineItems
    checkTotals := config.checkTotals.getD DEFAULT_CONFIG.checkTotals }

/-! ## `checkValue` -/

/-- Result of `checkValue`.  The early `return { isDiscrepancy: false }` leaves
the remaining fields `undefined`, modelled by `none`. -/
structure CheckResult where
  isDiscrepancy : Bool
  percentageVariance : Option ℚ := none
  stdDevVariance : Option ℚ := none
  severity : Option String := none
  deriving Repr, DecidableEq

/-- `checkValue(currentValue, historicalMean, historicalStdDev, config)` from
`lib/discrepancyDetector.js` (lines 190–231). -/
def checkValue (currentValue historicalMean : Option ℚ) (historicalStdDev : ℚ)
    (config : Config) : CheckResult :=
  match currentValue, historicalMean with
  | some cur, some mean =>
    if mean = 0 then { isDiscrepancy := false }
    else
      let percentageVariance : ℚ := |(cur - mean) / mean|
      let stdDevVariance : ℚ :=
        if historicalStdDev > 0 then |(cur - mean) / historicalStdDev| else 0
      let isDiscrepancy : Bool :=
        if config.mode = "percentage" then
          decide (percentageVariance > config.percentageThreshold)
        else if config.mode = "stddev" then
          decide (stdDevVariance > config.stdDevThreshold)
        else if config.mode = "both" then
          decide (percentageVariance > config.percentageThreshold ∨
            (historicalStdDev > 0 ∧ stdDevVariance > config.stdDevThreshold))
        else false
      let severity : String :=
        if percentageVariance > config.percentageThreshold * 2 ∨
            stdDevVariance > config.stdDevThreshold * 1.5 then "high"
        else if percentageVariance > config.percentageThreshold * 1.5 ∨
            stdDevVariance > config.stdDevThreshold * 1.2 then "medium"
        else "low"
      { isDiscrepancy := isDiscrepancy
        percentageVariance := some percentageVariance
        stdDevVariance := some stdDevVariance
        severity := some severity }
  | _, _ => { isDiscrepancy := false }

/-! ## Data model -/

/-- A parsed line item as it appears inside invoices (fields may be `null` in
persisted history, hence `Option`). -/
structure LineItem where
  description : String
  quantity : Option ℚ
  unitPrice : Option ℚ
  amount : Option ℚ
  deriving Repr, DecidableEq

/-- Invoice metadata; all fields free-form and nullable. -/
structure Metadata where
  invoiceNumber : Option String := none
  invoiceDate : Option String := none
  vendor : Option String := none
  deriving Repr, DecidableEq

/-- Invoice totals; each independently nullable. -/
structure Totals where
  subtotal : Option ℚ := none
  tax : Option ℚ := none
  total : Option ℚ := none
  deriving Repr, DecidableEq

/-- A structured invoice as consumed by the detector and stored in history.
`lineItems`, `metadata` and `totals` may be absent (`invoice.lineItems`,
`invoice.metadata?.`, `invoice.totals?.` guards in the source).  `id`,
`filename` and `processedDate` are the bookkeeping fields stamped by
`addInvoice`; no core computation reads them. -/
structure InvoiceData where
  id : Option String := none
  filename : Option String := none
  processedDate : Option String := none
  lineItems : Option (List LineItem) := none
  metadata : Option Metadata := none
  totals : Option Totals := none
  deriving Repr, DecidableEq

/-- A per-item aggregate entry of `itemAverages`. -/
structure ItemAggregate where
  originalName : String
  avgUnitPrice : ℚ
  unitPriceStdDev : ℚ
  avgQuantity : ℚ
  quantityStdDev : ℚ
  avgAmount : ℚ
  amountStdDev : ℚ
  count : Nat
  deriving Repr, DecidableEq

/-- A per-vendor aggregate entry of `vendorAverages`. -/
structure VendorAggregate where
  avgTotal : ℚ
  totalStdDev : ℚ
  avgSubtotal : ℚ
  subtotalStdDev : ℚ
  avgTax : ℚ
  taxStdDev : ℚ
  count : Nat
  deriving Repr, DecidableEq

/-- The persisted history state (`invoiceHistory.json`).  The two aggregate
tables are JS objects, modelled as insertion-ordered association lists. -/
structure HistoryState where
  invoices : List InvoiceData
  itemAverages : List (String × ItemAggregate)
  vendorAverages : List (String × VendorAggregate)
  lastUpdated : Option String
  deriving Repr, DecidableEq

/-- Property read `obj[key]` on a JS object: first binding for the key. -/
def alGet {α : Type} : List (String × α) → String → Option α
  | [], _ => none
  | (k, v) :: rest, key => if k = key then some v else alGet rest key

/-- Property write `obj[key] = v` on a JS object: overwrite in place when the
key exists, otherwise append the new binding (insertion order). -/
def alSet {α : Type} : List (String × α) → String → α → List (String × α)
  | [], key, v => [(key, v)]
  | (k, w) :: rest, key, v =>
    if k = key then (k, v) :: rest else (k, w) :: alSet rest key v

/-! ## `calculateItemAverages`, `calculateVendorAverages`, `updateStatistics` -/

/-- Per-key accumulator used by `calculateItemAverages`. -/
structure ItemData where
  originalName : String
  unitPrices : List ℚ
  quantities : List ℚ
  amounts : List ℚ
  deriving Repr, DecidableEq

/-- Body of the inner `forEach` of `calculateItemAverages`: bucket one line
item by its normalized description. -/
def addLineItem (acc : List (String × ItemData)) (item : LineItem) :
    List (String × ItemData) :=
  let key := normalizeItemDescription item.description
  let data :=
    match alGet acc key with
    | some d => d
    | none => { originalName := item.description, unitPrices := [], quantities := [], amounts := [] }
  let data :=
    { data with
      unitPrices := data.unitPrices ++ (match item.unitPrice with | some v => [v] | none => [])
      quantities := data.quantities ++ (match item.quantity with | some v => [v] | none => [])
      amounts := data.amounts ++ (match item.amount with | some v => [v] | none => []) }
  alSet acc key data

/-- `calculateItemAverages()` from `lib/statisticsCalculator.js`; the
`loadHistory()` call is modelled by the explicit `history` argument. -/
def calculateItemAverages (sqrtF : ℚ → ℚ) (history : HistoryState) :
    List (String × ItemAggregate) :=
  let itemData :=
    history.invoices.foldl
      (fun acc invoice =>
        match invoice.lineItems with
        | none => acc
        | some items => items.foldl addLineItem acc)
      []
  itemData.map (fun p =>
    let priceStats := calculateStats sqrtF (some p.2.unitPrices)
    let qtyStats := calculateStats sqrtF (some p.2.quantities)
    let amountStats := calculateStats sqrtF (some p.2.amounts)
    (p.1,
      { originalName := p.2.originalName
        avgUnitPrice := priceStats.mean
        unitPriceStdDev := priceStats.stdDev
        avgQuantity := qtyStats.mean
        quantityStdDev := qtyStats.stdDev
        avgAmount := amountStats.mean
        amountStdDev := amountStats.stdDev
        count := priceStats.count }))

/-- Per-vendor accumulator used by `calculateVendorAverages`. -/
structure VendorData where
  totals : List ℚ
  subtotals : List ℚ
  taxes : List ℚ
  deriving Repr, DecidableEq

/-- `invoice.metadata?.vendor || 'Unknown'` (empty string is falsy in JS). -/
def vendorKey (invoice : InvoiceData) : String :=
  match invoice.metadata with
  | some md =>
    match md.vendor with
    | some v => if v = "" then "Unknown" else v
    | none => "Unknown"
  | none => "Unknown"

/-- Body of the `forEach` of `calculateVendorAverages`: bucket one invoice's
totals by vendor. -/
def addVendorTotals (acc : List (String × VendorData)) (invoice : InvoiceData) :
    List (String × VendorData) :=
  let vendor := vendorKey invoice
  let data :=
    match alGet acc vendor with
    | some d => d
    | none => { totals := [], subtotals := [], taxes := [] }
  let data :=
    { data with
      totals := data.totals ++
        (match invoice.totals with
         | some t => match t.total with | some v => [v] | none => []
         | none => [])
      subtotals := data.subtotals ++
        (match invoice.totals with
         | some t => match t.subtotal with | some v => [v] | none => []
         | none => [])
      taxes := data.taxes ++
        (match invoice.totals with
         | some t => match t.tax with | some v => [v] | none => []
         | none => []) }
  alSet acc vendor data

/-- `calculateVendorAverages()` from `lib/statisticsCalculator.js`. -/
def calculateVendorAverages (sqrtF : ℚ → ℚ) (history : HistoryState) :
    List (String × VendorAggregate) :=
  let vendorData := history.invoices.foldl addVendorTotals []
  vendorData.map (fun p =>
    let totalStats := calculateStats sqrtF (some p.2.totals)
    let subtotalStats := calculateStats sqrtF (some p.2.subtotals)
    let taxStats := calculateStats sqrtF (some p.2.taxes)
    (p.1,
      { avgTotal := totalStats.mean
        totalStdDev := totalStats.stdDev
        avgSubtotal := subtotalStats.mean
        subtotalStdDev := subtotalStats.stdDev
        avgTax := taxStats.mean
        taxStdDev := taxStats.stdDev
        count := totalStats.count }))

/-- `updateStatistics()` from `lib/statisticsCalculator.js`: recompute both
aggregate tables from the loaded state, save (stamping `lastUpdated := now`),
and return the tables.  The store is threaded explicitly: the second component
is the state written by `saveHistory`. -/
def updateStatistics (sqrtF : ℚ → ℚ) (now : String) (state : HistoryState) :
    (List (String × ItemAggregate) × List (String × VendorAggregate)) × HistoryState :=
  let itemAverages := calculateItemAverages sqrtF state
  let vendorAverages := calculateVendorAverages sqrtF state
  let newState : HistoryState :=
    { state with
      itemAverages := itemAverages
      vendorAverages := vendorAverages
      lastUpdated := some now }
  ((itemAverages, vendorAverages), newState)

/-! ## `loadHistory` -/

/-- The empty-but-valid state returned by `loadHistory` when the history file
is missing or unreadable. -/
def emptyHistory : HistoryState :=
  { invoices := [], itemAverages := [], vendorAverages := [], lastUpdated := none }

/-- `loadHistory()` from `lib/dataStore.js`.  The file system is abstracted:
`file` is the history file's contents (`none` = `fs.existsSync` false), and
`parseJson` models `JSON.parse` reading a `HistoryState`, `none` meaning the
parse throws (corrupt state); the `catch` branch logs and returns the empty
state instead of raising. -/
def loadHistory (parseJson : String → Option HistoryState) (file : Option String) :
    HistoryState :=
  match file with
  | none => emptyHistory
  | some data =>
    match parseJson data with
    | some history => history
    | none => emptyHistory

/-! ## `detectDiscrepancies` -/

/-- One `DiscrepancyFinding` pushed by `detectDiscrepancies`.  Fields that a
given finding type does not set (`lineIndex`/`description` for totals,
`vendor` for line items) are `none`; the variance/severity fields are copied
from a `CheckResult` and hence `Option` as well. -/
structure Finding where
  type : String
  lineIndex : Option Nat := none
  field : String
  description : Option String := none
  vendor : Option String := none
  currentValue : ℚ
  historicalAverage : ℚ
  percentageVariance : Option ℚ
  stdDevVariance : Option ℚ
  severity : Option String
  historicalCount : Nat
  deriving Repr, DecidableEq

/-- The three per-field checks of one line item (detector lines 46–119),
after the aggregate lookup and `minSamples` gate have passed. -/
def fieldFindings (cfg : Config) (index : Nat) (item : LineItem)
    (historical : ItemAggregate) : List Finding :=
  (match item.unitPrice with
   | some v =>
     if historical.avgUnitPrice > 0 then
       let d := checkValue (some v) (some historical.avgUnitPrice)
         historical.unitPriceStdDev cfg
       if d.isDiscrepancy then
         [{ type := "line_item", lineIndex := some index, field := "unitPrice"
            description := some item.description, currentValue := v
            historicalAverage := historical.avgUnitPrice
            percentageVariance := d.percentageVariance
            stdDevVariance := d.stdDevVariance, severity := d.severity
            historicalCount := historical.count }]
       else []
     else []
   | none => []) ++
  (match item.quantity with
   | some v =>
     if historical.avgQuantity > 0 then
       let d := checkValue (some v) (some historical.avgQuantity)
         historical.quantityStdDev cfg
       if d.isDiscrepancy then
         [{ type := "line_item", lineIndex := some index, field := "quantity"
            description := some item.description, currentValue := v
            historicalAverage := historical.avgQuantity
            percentageVariance := d.percentageVariance
            stdDevVariance := d.stdDevVariance, severity := d.severity
            historicalCount := historical.count }]
       else []
     else []
   | none => []) ++
  (match item.amount with
   | some v =>
     if historical.avgAmount > 0 then
       let d := checkValue (some v) (some historical.avgAmount)
         historical.amountStdDev cfg
       if d.isDiscrepancy then
         [{ type := "line_item", lineIndex := some index, field := "amount"
            description := some item.description, currentValue := v
            historicalAverage := historical.avgAmount
            percentageVariance := d.percentageVariance
            stdDevVariance := d.stdDevVariance, severity := d.severity
            historicalCount := historical.count }]
       else []
     else []
   | none => [])

/-- Findings contributed by one line item: aggregate lookup by normalized
description, the `!historical || historical.count < cfg.minSamples` gate, and
the three field checks. -/
def itemFindings (cfg : Config) (itemAverages : List (String × ItemAggregate))
    (index : Nat) (item : LineItem) : List Finding :=
  let itemKey := normalizeItemDescription item.description
  match alGet itemAverages itemKey with
  | none => []
  | some historical =>
    if (historical.count : ℚ) < cfg.minSamples then []
    else fieldFindings cfg index item historical

/-- `lineItems.forEach((item, index) => ...)`: pair each element with its
index, starting at `n`. -/
def withIdxFrom {α : Type} (n : Nat) : List α → List (Nat × α)
  | [] => []
  | a :: as => (n, a) :: withIdxFrom (n + 1) as

/-- The line-item pass of `detectDiscrepancies` (lines 36–121). -/
def lineItemFindings (cfg : Config) (itemAverages : List (String × ItemAggregate))
    (invoiceData : InvoiceData) : List Finding :=
  if cfg.checkLineItems then
    match invoiceData.lineItems with
    | some items =>
      (withIdxFrom 0 items).flatMap (fun p => itemFindings cfg itemAverages p.1 p.2)
    | none => []
  else []

/-- The totals pass of `detectDiscrepancies` (lines 124–177): guarded by a
truthy `invoiceData.metadata?.vendor`, an exact-string vendor lookup, and the
`count >= minSamples` gate; checks `total` and `subtotal` (never `tax`). -/
def totalsFindings (cfg : Config) (vendorAverages : List (String × VendorAggregate))
    (invoiceData : InvoiceData) : List Finding :=
  if cfg.checkTotals then
    match invoiceData.metadata with
    | none => []
    | some md =>
      match md.vendor with
      | none => []
      | some vendor =>
        if vendor = "" then []
        else
          match alGet vendorAverages vendor with
          | none => []
          | some vendorHistorical =>
            if (vendorHistorical.count : ℚ) ≥ cfg.minSamples then
              (match invoiceData.totals with
               | some totals =>
                 match totals.total with
                 | some v =>
                   if vendorHistorical.avgTotal > 0 then
                     let d := checkValue (some v) (some vendorHistorical.avgTotal)
                       vendorHistorical.totalStdDev cfg
                     if d.isDiscrepancy then
                       [{ type := "total", field := "total", vendor := some vendor
                          currentValue := v
                          historicalAverage := vendorHistorical.avgTotal
                          percentageVariance := d.percentageVariance
                          stdDevVariance := d.stdDevVariance, severity := d.severity
                          historicalCount := vendorHistorical.count }]
                     else []
                   else []
                 | none => []
               | none => []) ++
              (match invoiceData.totals with
               | some totals =>
                 match totals.subtotal with
                 | some v =>
                   if vendorHistorical.avgSubtotal > 0 then
                     let d := checkValue (some v) (some vendorHistorical.avgSubtotal)
                       vendorHistorical.subtotalStdDev cfg
                     if d.isDiscrepancy then
                       [{ type := "total", field := "subtotal", vendor := some vendor
                          currentValue := v
                          historicalAverage := vendorHistorical.avgSubtotal
                          percentageVariance := d.percentageVariance
                          stdDevVariance := d.stdDevVariance, severity := d.severity
                          historicalCount := vendorHistorical.count }]
                     else []
                   else []
                 | none => []
               | none => [])
            else []
  else []

/-- Result of `detectDiscrepancies`. -/
structure DetectResult where
  hasDiscrepancies : Bool
  discrepancyCount : Nat
  discrepancies : List Finding
  config : Config
  deriving Repr, DecidableEq

/-- `detectDiscrepancies(invoiceData, config)` from `lib/discrepancyDetector.js`
(lines 30–185).  The `loadHistory()` call is modelled by the explicit
`history` argument; the function reads only the two aggregate tables. -/
def detectDiscrepancies (invoiceData : InvoiceData) (config : ConfigOverride)
    (history : HistoryState) : DetectResult :=
  let cfg := mergeConfig config
  let discrepancies :=
    lineItemFindings cfg history.itemAverages invoiceData ++
    totalsFindings cfg history.vendorAverages invoiceData
  { hasDiscrepancies := decide (discrepancies.length > 0)
    discrepancyCount := discrepancies.length
    discrepancies := discrepancies
    config := cfg }

/-- `detectDiscrepancies` with the history store threaded as explicit state:
the body contains a `loadHistory()` read and no `saveHistory` call, so the
state passes through unchanged. -/
def detectDiscrepanciesS (invoiceData : InvoiceData) (config : ConfigOverride)
    (state : HistoryState) : DetectResult × HistoryState :=
  (detectDiscrepancies invoiceData config state, state)

example :
    (checkValue (some 130) (some 100) 0 DEFAULT_CONFIG).severity = some "medium" := by
  decide

example :
    (checkValue (some 130) (some 100) 0 DEFAULT_CONFIG).isDiscrepancy = true := by
  decide

example :
    calculateStats Rat.sqrt (some [10, 10, 10]) = { mean := 10, stdDev := 0, count := 3 } := by
  decide

/-! ## Concrete scenario for the severity boundary (spec §8, claim C1):
historical unit prices `[100, 100, 100]`, current unit price `130`. -/

/-- A history invoice whose only line item is the item `"Widget"` at the given
unit price (quantity and amount absent). -/
def widgetInvoice (price : ℚ) : InvoiceData :=
  { lineItems := some
      [{ description := "Widget", quantity := none, unitPrice := some price, amount := none }] }

/-- History of three `"Widget"` invoices at unit price 100, with the aggregate
tables recomputed by `updateStatistics` (mean 100, stdDev 0, count 3). -/
def histC1 : HistoryState :=
  (updateStatistics Rat.sqrt "2026-01-01T00:00:00.000Z"
    { invoices := [widgetInvoice 100, widgetInvoice 100, widgetInvoice 100]
      itemAverages := [], vendorAverages := [], lastUpdated := none }).2

example :
    alGet histC1.itemAverages "widget" =
      some { originalName := "Widget", avgUnitPrice := 100, unitPriceStdDev := 0
             avgQuantity := 0, quantityStdDev := 0, avgAmount := 0, amountStdDev := 0
             count := 3 } := by
  decide

example :
    (detectDiscrepancies (widgetInvoice 130) {} histC1).discrepancyCount = 1 := by
  decide

example :
    (detectDiscrepancies (widgetInvoice 130) {} histC1).discrepancies.map Finding.severity =
      [some "medium"] := by
  decide

/-! ## Fixtures for the configuration-fallback claim (C3) -/

/-- A ready-made aggregate: mean unit price 100, stdDev 0, 3 samples. -/
def gadgetAggregate : ItemAggregate :=
  { originalName := "gadget", avgUnitPrice := 100, unitPriceStdDev := 0
    avgQuantity := 0, quantityStdDev := 0, avgAmount := 0, amountStdDev := 0
    count := 3 }

/-- History whose item table has only the `"gadget"` aggregate. -/
def histC3 : HistoryState :=
  { invoices := [], itemAverages := [("gadget", gadgetAggregate)]
    vendorAverages := [], lastUpdated := none }

/-- An invoice with one `"gadget"` line item at exactly the historical mean. -/
def invC3 : InvoiceData :=
  { lineItems := some
      [{ description := "gadget", quantity := none, unitPrice := some 100, amount := none }] }

/-! ## Claim theorems -/

/-- C1 (counterexample).  Spec §8 and claim C1 assert that with historical unit
prices `[100, 100, 100]` (mean 100, stdDev 0, count 3 ≥ minSamples) and a
current unit price of 130 under the default configuration, the detector flags
the field with severity `"high"` because `0.30 > 2×0.15`.  The flagging is
real, but the severity test is strict: `percentageVariance = 3/10` is *equal*
to `2 × percentageThreshold = 3/10`, not greater (this is also how binary64
evaluates it: `0.3` and `2*0.15` are the same double), so the severity branch
falls through to `"medium"`.  The detector produces exactly one finding and
its severity is not `"high"`. -/
theorem detect_boundary_severity_not_high :
    (detectDiscrepancies (widgetInvoice 130) {} histC1).discrepancyCount = 1 ∧
    (detectDiscrepancies (widgetInvoice 130) {} histC1).discrepancies.map Finding.severity ≠
      [some "high"] := by
  decide

/-- C1 (amended).  Same scenario: the detector flags the unit-price field
(`percentageVariance = 3/10 > 0.15`), but assigns severity `"medium"`
(`3/10 > 1.5 × 0.15` while `3/10 ≯ 2 × 0.15`). -/
theorem detect_boundary_flagged_medium :
    (detectDiscrepancies (widgetInvoice 130) {} histC1).hasDiscrepancies = true ∧
    (detectDiscrepancies (widgetInvoice 130) {} histC1).discrepancies.map Finding.field =
      ["unitPrice"] ∧
    (detectDiscrepancies (widgetInvoice 130) {} histC1).discrepancies.map
      Finding.percentageVariance = [some (3/10)] ∧
    (detectDiscrepancies (widgetInvoice 130) {} histC1).discrepancies.map Finding.severity =
      [some "medium"] := by
  decide

/-- C2.  `detectDiscrepancies` is a pure function of the invoice, the two
aggregate tables and the configuration: two history states with the same
`itemAverages` and `vendorAverages` yield identical results (the rest of the
state — `invoices`, `lastUpdated` — is never read), and the state-threaded form
returns the store unchanged (no write, no recomputation). -/
theorem detect_pure (inv : InvoiceData) (c : ConfigOverride) (h1 h2 : HistoryState)
    (eItems : h1.itemAverages = h2.itemAverages)
    (eVendors : h1.vendorAverages = h2.vendorAverages) :
    detectDiscrepancies inv c h1 = detectDiscrepancies inv c h2 ∧
    (detectDiscrepanciesS inv c h1).2 = h1 := by
  refine ⟨?_, rfl⟩
  simp only [detectDiscrepancies, eItems, eVendors]

/-- Witness for C2 at concrete inputs: a history with an invoice and a
timestamp versus the empty history, with equal (empty) aggregate tables. -/
theorem detect_pure_witness :
    detectDiscrepancies (widgetInvoice 130) {}
        { invoices := [widgetInvoice 100], itemAverages := []
          vendorAverages := [], lastUpdated := some "2026-01-01" } =
      detectDiscrepancies (widgetInvoice 130) {} emptyHistory ∧
    (detectDiscrepanciesS (widgetInvoice 130) {} emptyHistory).2 = emptyHistory :=
  ⟨(detect_pure (widgetInvoice 130) {}
      { invoices := [widgetInvoice 100], itemAverages := []
        vendorAverages := [], lastUpdated := some "2026-01-01" }
      emptyHistory rfl rfl).1,
   (detect_pure (widgetInvoice 130) {} emptyHistory emptyHistory rfl rfl).2⟩

/-- C3 (counterexample).  The claim says an out-of-range threshold override
makes the detection pass fall back to the defaults.  The code merely spreads
the caller's object over `DEFAULT_CONFIG`, so an out-of-range value such as
`percentageThreshold = -1` is used verbatim: on an invoice at exactly the
historical mean it flags a discrepancy (variance `0 > -1`) while the default
configuration flags nothing — completing, but not behaving as the defaults. -/
theorem detect_no_threshold_fallback :
    (detectDiscrepancies invC3 { percentageThreshold := some (-1) } histC3).discrepancyCount
        = 1 ∧
    (detectDiscrepancies invC3 {} histC3).discrepancyCount = 0 ∧
    detectDiscrepancies invC3 { percentageThreshold := some (-1) } histC3 ≠
      detectDiscrepancies invC3 {} histC3 := by
  decide

/-- C3 (amended).  Threshold overrides are not validated: a supplied
`percentageThreshold`/`stdDevThreshold` — in range or not — is used verbatim in
the detection pass (and `detectDiscrepancies`, being total, still completes);
only absent keys fall back to the defaults. -/
theorem detect_threshold_override_verbatim (inv : InvoiceData) (hist : HistoryState)
    (c : ConfigOverride) (p s : ℚ)
    (hp : c.percentageThreshold = some p) (hs : c.stdDevThreshold = some s) :
    (detectDiscrepancies inv c hist).config.percentageThreshold = p ∧
    (detectDiscrepancies inv c hist).config.stdDevThreshold = s ∧
    ∀ c0 : ConfigOverride, c0.percentageThreshold = none →
      (detectDiscrepancies inv c0 hist).config.percentageThreshold =
        DEFAULT_CONFIG.percentageThreshold := by
  refine ⟨?_, ?_, ?_⟩
  · simp [detectDiscrepancies, mergeConfig, hp]
  · simp [detectDiscrepancies, mergeConfig, hs]
  · intro c0 h0
    simp [detectDiscrepancies, mergeConfig, h0]

/-- Witness for C3 (amended) at a concrete out-of-range override. -/
theorem detect_threshold_override_verbatim_witness :
    (detectDiscrepancies invC3
        { percentageThreshold := some (-1), stdDevThreshold := some 7 }
        histC3).config.percentageThreshold = -1 ∧
    (detectDiscrepancies invC3
        { percentageThreshold := some (-1), stdDevThreshold := some 7 }
        histC3).config.stdDevThreshold = 7 :=
  ⟨(detect_threshold_override_verbatim invC3 histC3
      { percentageThreshold := some (-1), stdDevThreshold := some 7 } (-1) 7 rfl rfl).1,
   (detect_threshold_override_verbatim invC3 histC3
      { percentageThreshold := some (-1), stdDevThreshold := some 7 } (-1) 7 rfl rfl).2.1⟩

/-- C4.  For a strictly positive historical mean, `checkValue` computes
`percentageVariance = |current - mean| / mean`, `stdDevVariance =
|current - mean| / stdDev` when `stdDev > 0` (else 0), and flags exactly under
the mode-dependent condition — for `"both"`, the percentage condition OR
(`stdDev > 0` and the stddev condition). -/
theorem checkValue_spec (cur mean stddev : ℚ) (cfg : Config) (hmean : 0 < mean) :
    (checkValue (some cur) (some mean) stddev cfg).percentageVariance =
      some (|cur - mean| / mean) ∧
    (checkValue (some cur) (some mean) stddev cfg).stdDevVariance =
      some (if 0 < stddev then |cur - mean| / stddev else 0) ∧
    ((checkValue (some cur) (some mean) stddev cfg).isDiscrepancy = true ↔
      (cfg.mode = "percentage" ∧ |cur - mean| / mean > cfg.percentageThreshold) ∨
      (cfg.mode = "stddev" ∧
        (if 0 < stddev then |cur - mean| / stddev else 0) > cfg.stdDevThreshold) ∨
      (cfg.mode = "both" ∧ (|cur - mean| / mean > cfg.percentageThreshold ∨
        (0 < stddev ∧ |cur - mean| / stddev > cfg.stdDevThreshold)))) := by
  have hne : mean ≠ 0 := ne_of_gt hmean
  have habs : |(cur - mean) / mean| = |cur - mean| / mean := by
    rw [abs_div, abs_of_pos hmean]
  have habs2 : ∀ sd : ℚ, 0 < sd → |(cur - mean) / sd| = |cur - mean| / sd := by
    intro sd hsd
    rw [abs_div, abs_of_pos hsd]
  simp only [checkValue, if_neg hne]
  refine ⟨by rw [habs], ?_, ?_⟩
  · split_ifs with h
    · rw [habs2 stddev h]
    · rfl
  · by_cases hm1 : cfg.mode = "percentage"
    · rw [if_pos hm1]
      rw [habs]
      simp only [decide_eq_true_iff]
      constructor
      · intro h
        exact Or.inl ⟨hm1, h⟩
      · rintro (⟨_, h⟩ | ⟨h2, _⟩ | ⟨h3, _⟩)
        · exact h
        · exact absurd (hm1.symm.trans h2) (by decide)
        · exact absurd (hm1.symm.trans h3) (by decide)
    · by_cases hm2 : cfg.mode = "stddev"
      · rw [if_neg hm1, if_pos hm2]
        simp only [decide_eq_true_iff]
        constructor
        · intro h
          refine Or.inr (Or.inl ⟨hm2, ?_⟩)
          split_ifs with hsd
          · rw [if_pos hsd] at h
            rw [← habs2 stddev hsd]
            exact h
          · rw [if_neg hsd] at h
            exact h
        · rintro (⟨h1, _⟩ | ⟨_, h⟩ | ⟨h3, _⟩)
          · exact absurd (hm2.symm.trans h1) (by decide)
          · split_ifs at h with hsd
            · rw [if_pos hsd, habs2 stddev hsd]
              exact h
            · rw [if_neg hsd]
              exact h
          · exact absurd (hm2.symm.trans h3) (by decide)
      · by_cases hm3 : cfg.mode = "both"
        · rw [if_neg hm1, if_neg hm2, if_pos hm3]
          simp only [decide_eq_true_iff]
          constructor
          · rintro (h | ⟨hsd, h⟩)
            · exact Or.inr (Or.inr ⟨hm3, Or.inl (habs ▸ h)⟩)
            · refine Or.inr (Or.inr ⟨hm3, Or.inr ⟨hsd, ?_⟩⟩)
              rw [if_pos hsd] at h
              rw [← habs2 stddev hsd]
              exact h
          · rintro (⟨h1, _⟩ | ⟨h2, _⟩ | ⟨_, h | ⟨hsd, h⟩⟩)
            · exact absurd (hm3.symm.trans h1) (by decide)
            · exact absurd (hm3.symm.trans h2) (by decide)
            · exact Or.inl (habs.symm ▸ h)
            · refine Or.inr ⟨hsd, ?_⟩
              rw [if_pos hsd, habs2 stddev hsd]
              exact h
        · rw [if_neg hm1, if_neg hm2, if_neg hm3]
          simp [hm1, hm2, hm3]

/-- Witness for C4 at the concrete boundary input of §8. -/
theorem checkValue_spec_witness :
    (0:ℚ) < 100 ∧
    (checkValue (some 130) (some 100) 0 DEFAULT_CONFIG).percentageVariance =
      some (|(130:ℚ) - 100| / 100) :=
  ⟨by norm_num, (checkValue_spec 130 100 0 DEFAULT_CONFIG (by norm_num)).1⟩

/-- Every finding emitted by the per-field checks of line item `i` carries
`lineIndex = some i`. -/
lemma fieldFindings_lineIndex (cfg : Config) (i : Nat) (item : LineItem)
    (historical : ItemAggregate) (f : Finding) (hf : f ∈ fieldFindings cfg i item historical) :
    f.lineIndex = some i := by
  simp only [fieldFindings, List.mem_append, or_assoc] at hf
  rcases hf with hf | hf | hf <;>
    · split at hf
      · split at hf
        · split at hf
          · rw [List.mem_singleton.mp hf]
          · simp at hf
        · simp at hf
      · simp at hf

/-- Every finding emitted for line item `i` carries `lineIndex = some i`. -/
lemma itemFindings_lineIndex (cfg : Config) (itemAverages : List (String × ItemAggregate))
    (i : Nat) (item : LineItem) (f : Finding) (hf : f ∈ itemFindings cfg itemAverages i item) :
    f.lineIndex = some i := by
  simp only [itemFindings] at hf
  split at hf
  · simp at hf
  · split at hf
    · simp at hf
    · exact fieldFindings_lineIndex cfg i item _ f hf

/-- The `!historical || historical.count < cfg.minSamples` gate: a line item
with no aggregate, or with too few samples, contributes no findings. -/
lemma itemFindings_skip (cfg : Config) (itemAverages : List (String × ItemAggregate))
    (i : Nat) (item : LineItem)
    (hskip : ∀ a, alGet itemAverages (normalizeItemDescription item.description) = some a →
      (a.count : ℚ) < cfg.minSamples) :
    itemFindings cfg itemAverages i item = [] := by
  simp only [itemFindings]
  cases hget : alGet itemAverages (normalizeItemDescription item.description) with
  | none => rfl
  | some historical =>
    simp [hskip historical hget]

/-- Indexing lemma for `withIdxFrom`: an indexed pair locates its element. -/
lemma withIdxFrom_get {α : Type} (l : List α) :
    ∀ (n j : Nat) (a : α), (j, a) ∈ withIdxFrom n l → n ≤ j ∧ l.get? (j - n) = some a := by
  induction l with
  | nil => intro n j a h; simp [withIdxFrom] at h
  | cons b bs ih =>
    intro n j a h
    simp only [withIdxFrom, List.mem_cons] at h
    rcases h with h | h
    · cases h
      simp
    · obtain ⟨hle, hget⟩ := ih (n + 1) j a h
      refine ⟨Nat.le_of_succ_le hle, ?_⟩
      have hj : j - n = (j - (n + 1)) + 1 := by omega
      rw [hj]
      simpa using hget

/-- Every finding of the totals pass has no `lineIndex`. -/
lemma totalsFindings_lineIndex (cfg : Config)
    (vendorAverages : List (String × VendorAggregate)) (inv : InvoiceData) (f : Finding)
    (hf : f ∈ totalsFindings cfg vendorAverages inv) : f.lineIndex = none := by
  simp only [totalsFindings] at hf
  split at hf
  case isFalse => simp at hf
  case isTrue =>
    split at hf
    · simp at hf
    · split at hf
      · simp at hf
      · split at hf
        · simp at hf
        · split at hf
          · simp at hf
          · split at hf
            case isFalse => simp at hf
            case isTrue =>
              simp only [List.mem_append] at hf
              rcases hf with hf | hf <;>
                · split at hf
                  · split at hf
                    · split at hf
                      · split at hf
                        · rw [List.mem_singleton.mp hf]
                        · simp at hf
                      · simp at hf
                    · simp at hf
                  · simp at hf

/-- C5.  A line item whose normalized description has no aggregate in the
supplied history, or whose aggregate has `count < minSamples`, is skipped
entirely: no finding of the detection result points at its index, no matter
how far its values deviate. -/
theorem detect_skips_insufficient_history (inv : InvoiceData) (c : ConfigOverride)
    (hist : HistoryState) (items : List LineItem) (i : Nat) (item : LineItem)
    (hitems : inv.lineItems = some items) (hget : items.get? i = some item)
    (hskip : ∀ a, alGet hist.itemAverages (normalizeItemDescription item.description) = some a →
      (a.count : ℚ) < (mergeConfig c).minSamples) :
    ∀ f ∈ (detectDiscrepancies inv c hist).discrepancies, f.lineIndex ≠ some i := by
  intro f hf hcontra
  simp only [detectDiscrepancies] at hf
  rcases List.mem_append.mp hf with hf | hf
  · simp only [lineItemFindings, hitems] at hf
    split_ifs at hf with hcli
    · rcases List.mem_flatMap.mp hf with ⟨⟨j, itemj⟩, hjmem, hfj⟩
      have hidx : f.lineIndex = some j :=
        itemFindings_lineIndex (mergeConfig c) hist.itemAverages j itemj f hfj
      have hji : j = i := Option.some.inj (hidx.symm.trans hcontra)
      subst hji
      obtain ⟨-, hgetj⟩ := withIdxFrom_get items 0 j itemj hjmem
      rw [Nat.sub_zero] at hgetj
      have hitemj : itemj = item := Option.some.inj (hgetj.symm.trans hget)
      subst hitemj
      rw [itemFindings_skip (mergeConfig c) hist.itemAverages j itemj hskip] at hfj
      simp at hfj
    · simp at hf
  · have := totalsFindings_lineIndex (mergeConfig c) hist.vendorAverages inv f hf
    rw [this] at hcontra
    cases hcontra

/-- Witness for C5: an item with an aggregate of only 2 samples under
`minSamples = 3` (the default) produces no finding at its index. -/
theorem detect_skips_insufficient_history_witness :
    ({ lineItems := some
        [{ description := "gadget", quantity := none, unitPrice := some 1000000
           amount := none }] } : InvoiceData).lineItems = some
        [{ description := "gadget", quantity := none, unitPrice := some 1000000
           amount := none }] ∧
    ∀ f ∈ (detectDiscrepancies
        { lineItems := some
            [{ description := "gadget", quantity := none, unitPrice := some 1000000
               amount := none }] } {}
        { invoices := []
          itemAverages := [("gadget", { gadgetAggregate with count := 2 })]
          vendorAverages := [], lastUpdated := none }).discrepancies,
      f.lineIndex ≠ some 0 :=
  ⟨rfl,
   detect_skips_insufficient_history
     { lineItems := some
         [{ description := "gadget", quantity := none, unitPrice := some 1000000
            amount := none }] } {}
     { invoices := []
       itemAverages := [("gadget", { gadgetAggregate with count := 2 })]
       vendorAverages := [], lastUpdated := none }
     [{ description := "gadget", quantity := none, unitPrice := some 1000000
        amount := none }] 0
     { description := "gadget", quantity := none, unitPrice := some 1000000
       amount := none }
     rfl rfl (by decide)⟩

/-- C6.  `calculateStats` returns `{mean 0, stdDev 0, count 0}` for a missing
(`null`) or empty sample list; for a non-empty list the only division is by
the sample count, which is non-zero — the function is total and never divides
by zero. -/
theorem calculateStats_total (sqrtF : ℚ → ℚ) :
    calculateStats sqrtF none = { mean := 0, stdDev := 0, count := 0 } ∧
    calculateStats sqrtF (some []) = { mean := 0, stdDev := 0, count := 0 } ∧
    ∀ vs : List ℚ, vs ≠ [] →
      (((calculateStats sqrtF (some vs)).count : ℚ) ≠ 0 ∧
       (calculateStats sqrtF (some vs)).mean =
         vs.foldl (fun sum val => sum + val) 0 / ((calculateStats sqrtF (some vs)).count : ℚ)) := by
  refine ⟨rfl, rfl, ?_⟩
  intro vs hvs
  have hlen : vs.length ≠ 0 := fun h => hvs (List.length_eq_zero.mp h)
  constructor
  · simp [calculateStats, hvs, Nat.cast_ne_zero, hlen]
  · simp [calculateStats, hvs]

/-- Witness for C6 at a concrete sample list. -/
theorem calculateStats_total_witness :
    calculateStats Rat.sqrt none = { mean := 0, stdDev := 0, count := 0 } ∧
    ((calculateStats Rat.sqrt (some [10, 10, 10])).count : ℚ) ≠ 0 :=
  ⟨(calculateStats_total Rat.sqrt).1,
   ((calculateStats_total Rat.sqrt).2.2 [10, 10, 10] (by decide)).1⟩

/-- C7.  Recomputing the aggregates twice in a row over unchanged invoice
history is idempotent: the second `updateStatistics` returns the same
`itemAverages` and `vendorAverages` tables (as values and in the stored
state), because recomputation reads only `invoices`, which it never changes. -/
theorem updateStatistics_idempotent (sqrtF : ℚ → ℚ) (t1 t2 : String) (s : HistoryState) :
    (updateStatistics sqrtF t2 (updateStatistics sqrtF t1 s).2).1 =
      (updateStatistics sqrtF t1 s).1 ∧
    (updateStatistics sqrtF t2 (updateStatistics sqrtF t1 s).2).2.itemAverages =
      (updateStatistics sqrtF t1 s).2.itemAverages ∧
    (updateStatistics sqrtF t2 (updateStatistics sqrtF t1 s).2).2.vendorAverages =
      (updateStatistics sqrtF t1 s).2.vendorAverages := by
  refine ⟨rfl, rfl, rfl⟩

/-- C8.  The normalization key function maps `"Widget,  Large"` and
`"widget large"` to the same key, `"widget large"`: lower-casing, trimming,
collapsing whitespace runs and stripping non-word/non-space characters
identify the two descriptions. -/
theorem normalizeItemDescription_collapses :
    normalizeItemDescription "Widget,  Large" = "widget large" ∧
    normalizeItemDescription "widget large" = "widget large" := by
  decide

/-- C9.  `loadHistory` degrades to the empty-but-valid state both when no
persisted state exists (`file = none`) and when the persisted contents fail to
parse (`JSON.parse` throws, modelled by `parseJson s = none`); the failure is
swallowed (logged), never raised. -/
theorem loadHistory_degrades (parseJson : String → Option HistoryState) (s : String)
    (hcorrupt : parseJson s = none) :
    loadHistory parseJson none = emptyHistory ∧
    loadHistory parseJson (some s) = emptyHistory := by
  constructor
  · rfl
  · simp only [loadHistory, hcorrupt]

/-- Witness for C9: a parser that always throws, on concrete contents. -/
theorem loadHistory_degrades_witness :
    loadHistory (fun _ => none) none = emptyHistory ∧
    loadHistory (fun _ => none) (some "corrupt bytes") = emptyHistory :=
  loadHistory_degrades (fun _ => none) "corrupt bytes" rfl

/-! ## The invoice parser: line-item extraction (`invoiceParser.js`)

The two line-item regular expressions

  `lineItem:      ^(.+?)\s{2,}(\d+)\s+\$?\s*(NUM)\s+\$?\s*(NUM)$`
  `lineItemComma: ^([^,]+),\s*(\d+),\s*\$?\s*(NUM),\s*\$?\s*(NUM)$`

with `NUM = \d+(?:,\d{3})*(?:\.\d{2})?` are embedded as backtracking matchers
over `List Char`.  Each component parser returns the list of all
`(consumed, rest)` alternatives in the engine's backtracking priority order
(greedy pieces longest-first, the lazy `(.+?)` shortest-first); the overall
match is the head of the flattened alternative list, exactly the first match
an ECMAScript engine finds. -/

/-- A character the regex `.` matches: anything but a line terminator. -/
def dotOk (c : Char) : Bool :=
  !(c = '\n' || c = '\r' || c.toNat = 0x2028 || c.toNat = 0x2029)

/-- `x+` for a character class, greedy: all non-empty prefixes of the maximal
run, longest first. -/
def pGreedyPlus (p : Char → Bool) : List Char → List (List Char × List Char)
  | [] => []
  | c :: rest =>
    if p c then
      ((pGreedyPlus p rest).map (fun q => (c :: q.1, q.2))) ++ [([c], rest)]
    else []

/-- `x*` for a character class, greedy: all prefixes of the maximal run,
longest first (always includes the empty alternative). -/
def pGreedyStar (p : Char → Bool) : List Char → List (List Char × List Char)
  | [] => [([], [])]
  | c :: rest =>
    if p c then
      ((pGreedyStar p rest).map (fun q => (c :: q.1, q.2))) ++ [([], c :: rest)]
    else [([], c :: rest)]

/-- `\s{2,}`, greedy. -/
def pWsMin2 (l : List Char) : List (List Char × List Char) :=
  (pGreedyPlus isJsWs l).filter (fun q => 2 ≤ q.1.length)

/-- `\$?`, greedy (present-first). -/
def pDollarOpt : List Char → List (List Char × List Char)
  | c :: rest => if c = '$' then [(['$'], rest), ([], c :: rest)] else [([], c :: rest)]
  | [] => [([], [])]

/-- A literal character. -/
def pLit (ch : Char) : List Char → List (List Char × List Char)
  | c :: rest => if c = ch then [([c], rest)] else []
  | [] => []

/-- `(?:,\d{3})*`, greedy: iterations of a comma followed by exactly three
digits, most iterations first. -/
def pCommaGroups : List Char → List (List Char × List Char)
  | c :: a :: b :: d :: rest =>
    if c = ',' && a.isDigit && b.isDigit && d.isDigit then
      ((pCommaGroups rest).map (fun q => (c :: a :: b :: d :: q.1, q.2))) ++
        [([], c :: a :: b :: d :: rest)]
    else [([], c :: a :: b :: d :: rest)]
  | l => [([], l)]

/-- `(?:\.\d{2})?`, greedy (present-first). -/
def pOptFrac : List Char → List (List Char × List Char)
  | c :: a :: b :: rest =>
    if c = '.' && a.isDigit && b.isDigit then
      [([c, a, b], rest), ([], c :: a :: b :: rest)]
    else [([], c :: a :: b :: rest)]
  | l => [([], l)]

/-- `NUM = \d+(?:,\d{3})*(?:\.\d{2})?`, returning the captured token. -/
def pNum (l : List Char) : List (List Char × List Char) :=
  (pGreedyPlus Char.isDigit l).flatMap (fun dp =>
    (pCommaGroups dp.2).flatMap (fun gp =>
      (pOptFrac gp.2).map (fun fp => (dp.1 ++ gp.1 ++ fp.1, fp.2))))

/-- `(.+?)`, lazy: non-empty prefixes of `.`-matchable characters, shortest
first. -/
def pDotLazy (l : List Char) : List (List Char × List Char) :=
  (List.range l.length).filterMap (fun k =>
    let pre := l.take (k + 1)
    if pre.all dotOk then some (pre, l.drop (k + 1)) else none)

/-- All full matches of the whitespace-delimited `lineItem` pattern against a
whole line, in backtracking order, with the four captures. -/
def lineItemMatches (l : List Char) :
    List (List Char × List Char × List Char × List Char) :=
  (pDotLazy l).flatMap (fun dp =>
    (pWsMin2 dp.2).flatMap (fun w1 =>
      (pGreedyPlus Char.isDigit w1.2).flatMap (fun qp =>
        (pGreedyPlus isJsWs qp.2).flatMap (fun w2 =>
          (pDollarOpt w2.2).flatMap (fun dol1 =>
            (pGreedyStar isJsWs dol1.2).flatMap (fun w3 =>
              (pNum w3.2).flatMap (fun pp =>
                (pGreedyPlus isJsWs pp.2).flatMap (fun w4 =>
                  (pDollarOpt w4.2).flatMap (fun dol2 =>
                    (pGreedyStar isJsWs dol2.2).flatMap (fun w5 =>
                      (pNum w5.2).filterMap (fun ap =>
                        if ap.2 = [] then some (dp.1, qp.1, pp.1, ap.1)
                        else none)))))))))))

/-- `line.match(PATTERNS.lineItem)`: the first full match, if any. -/
def matchLineItem (l : List Char) :
    Option (List Char × List Char × List Char × List Char) :=
  (lineItemMatches l).head?

/-- All full matches of the comma-delimited `lineItemComma` pattern. -/
def lineItemCommaMatches (l : List Char) :
    List (List Char × List Char × List Char × List Char) :=
  (pGreedyPlus (fun c => !(c = ',')) l).flatMap (fun dp =>
    (pLit ',' dp.2).flatMap (fun c1 =>
      (pGreedyStar isJsWs c1.2).flatMap (fun w1 =>
        (pGreedyPlus Char.isDigit w1.2).flatMap (fun qp =>
          (pLit ',' qp.2).flatMap (fun c2 =>
            (pGreedyStar isJsWs c2.2).flatMap (fun w2 =>
              (pDollarOpt w2.2).flatMap (fun dol1 =>
                (pGreedyStar isJsWs dol1.2).flatMap (fun w3 =>
                  (pNum w3.2).flatMap (fun pp =>
                    (pLit ',' pp.2).flatMap (fun c3 =>
                      (pGreedyStar isJsWs c3.2).flatMap (fun w4 =>
                        (pDollarOpt w4.2).flatMap (fun dol2 =>
                          (pGreedyStar isJsWs dol2.2).flatMap (fun w5 =>
                            (pNum w5.2).filterMap (fun ap =>
                              if ap.2 = [] then some (dp.1, qp.1, pp.1, ap.1)
                              else none))))))))))))))

/-- `line.match(PATTERNS.lineItemComma)`: the first full match, if any. -/
def matchLineItemComma (l : List Char) :
    Option (List Char × List Char × List Char × List Char) :=
  (lineItemCommaMatches l).head?

/-- The two-pattern cascade of `extractLineItems`: whitespace pattern first,
comma pattern when it fails. -/
def matchEither (line : List Char) :
    Option (List Char × List Char × List Char × List Char) :=
  match matchLineItem line with
  | some m => some m
  | none => matchLineItemComma line

/-! ## `parseInt` / `parseFloat` and line-item assembly -/

/-- `match[3].replace(/,/g, '')`. -/
def stripCommas (l : List Char) : List Char :=
  l.filter (fun c => !(c = ','))

/-- Value of a decimal digit run. -/
def digitsToNat (l : List Char) : Nat :=
  l.foldl (fun n c => 10 * n + (c.toNat - 48)) 0

/-- JS `parseInt(s)` (radix-10 fragment relevant here: optional whitespace,
optional sign, then a leading digit run; `none` models `NaN`). -/
def jsParseInt (s : List Char) : Option Int :=
  let t := s.dropWhile isJsWs
  match t with
  | c :: r =>
    if c = '-' then
      let ds := r.takeWhile Char.isDigit
      if ds.isEmpty then none else some (-(digitsToNat ds : Int))
    else if c = '+' then
      let ds := r.takeWhile Char.isDigit
      if ds.isEmpty then none else some ((digitsToNat ds : Int))
    else
      let ds := t.takeWhile Char.isDigit
      if ds.isEmpty then none else some ((digitsToNat ds : Int))
  | [] => none

/-- Value of a fractional digit run. -/
def fracVal (l : List Char) : ℚ :=
  (digitsToNat l : ℚ) / (10 : ℚ) ^ l.length

/-- `parseFloat` body after whitespace/sign handling: `digits [. digits]`,
requiring at least one digit overall (`none` models `NaN`).  The exponent
form (`e`/`E`), never produced by the line-item patterns, is not modelled. -/
def jsParseFloatCore (t : List Char) : Option ℚ :=
  let ip := t.takeWhile Char.isDigit
  let rest := t.dropWhile Char.isDigit
  match rest with
  | c :: r =>
    if c = '.' then
      let fp := r.takeWhile Char.isDigit
      if ip.isEmpty && fp.isEmpty then none
      else some ((digitsToNat ip : ℚ) + fracVal fp)
    else if ip.isEmpty then none else some ((digitsToNat ip : ℚ))
  | [] => if ip.isEmpty then none else some ((digitsToNat ip : ℚ))

/-- JS `parseFloat(s)` (same fragment). -/
def jsParseFloat (s : List Char) : Option ℚ :=
  let t := s.dropWhile isJsWs
  match t with
  | c :: r =>
    if c = '-' then (jsParseFloatCore r).map (fun q => -q)
    else if c = '+' then jsParseFloatCore r
    else jsParseFloatCore t
  | [] => none

/-- Split a character list at every `'\n'` (the separators are dropped, empty
segments kept — the semantics of JS `split('\n')`). -/
def splitOnNl : List Char → List (List Char)
  | [] => [[]]
  | c :: rest =>
    if c = '\n' then [] :: splitOnNl rest
    else
      match splitOnNl rest with
      | l :: ls => (c :: l) :: ls
      | [] => [[c]]

/-- `text.split('\n')`. -/
def splitLinesJs (text : String) : List (List Char) :=
  splitOnNl text.toList

/-- A line item accepted by the parser: all three numeric fields parsed. -/
structure ParsedLineItem where
  description : String
  quantity : Int
  unitPrice : ℚ
  amount : ℚ
  deriving Repr, DecidableEq

/-- `extractLineItems(text)` from `invoiceParser.js` (lines 53–85): match each
line against the two patterns, parse the three numeric captures, and keep the
line only if none of them is `NaN` (the `!isNaN(...)` validation branch). -/
def extractLineItems (text : String) : List ParsedLineItem :=
  (splitLinesJs text).filterMap (fun line =>
    match matchEither line with
    | none => none
    | some m =>
      let quantity := jsParseInt m.2.1
      let unitPrice := jsParseFloat (stripCommas m.2.2.1)
      let amount := jsParseFloat (stripCommas m.2.2.2)
      match quantity, unitPrice, amount with
      | some qv, some uv, some av =>
        some { description := (trimJs m.1).asString, quantity := qv
               unitPrice := uv, amount := av }
      | _, _, _ => none)

/-- `extractLineItems` with the numeric-validation branch removed: every
pattern-matched line is accepted unconditionally. -/
def extractLineItemsNoCheck (text : String) : List ParsedLineItem :=
  (splitLinesJs text).filterMap (fun line =>
    match matchEither line with
    | none => none
    | some m =>
      some { description := (trimJs m.1).asString
             quantity := (jsParseInt m.2.1).getD 0
             unitPrice := (jsParseFloat (stripCommas m.2.2.1)).getD 0
             amount := (jsParseFloat (stripCommas m.2.2.2)).getD 0 })

example :
    matchEither ("A  1  2.00  4.00".toList) =
      some (['A'], ['1'], ['2', '.', '0', '0'], ['4', '.', '0', '0']) := by
  decide

example :
    extractLineItems "Widget Large  10  $5.00  $50.00" =
      [{ description := "Widget Large", quantity := 10, unitPrice := 5, amount := 50 }] := by
  decide

example :
    matchEither ("Bolt, 2, $3.50, $7.00".toList) =
      some ("Bolt".toList, ['2'], ['3', '.', '5', '0'], ['7', '.', '0', '0']) := by
  decide

/-! ## Shape of the numeric captures -/

/-- A digit is not a sign, separator or whitespace character. -/
lemma isDigit_ne (c : Char) (h : c.isDigit = true) :
    c ≠ ',' ∧ c ≠ '.' ∧ c ≠ '-' ∧ c ≠ '+' ∧ isJsWs c = false := by
  refine ⟨?_, ?_, ?_, ?_, ?_⟩
  · intro e; subst e; exact absurd h (by decide)
  · intro e; subst e; exact absurd h (by decide)
  · intro e; subst e; exact absurd h (by decide)
  · intro e; subst e; exact absurd h (by decide)
  · cases hw : isJsWs c
    · rfl
    · exfalso
      simp only [isJsWs, Bool.or_eq_true, decide_eq_true_eq, or_assoc] at hw
      rcases hw with e | e | e | e | e | e <;> subst e <;> exact absurd h (by decide)

lemma takeWhile_append_all {α : Type} (p : α → Bool) (xs ys : List α)
    (h : xs.all p = true) : (xs ++ ys).takeWhile p = xs ++ ys.takeWhile p := by
  induction xs with
  | nil => simp
  | cons a as ih =>
    simp only [List.all_cons, Bool.and_eq_true] at h
    simp [List.takeWhile_cons, h.1, ih h.2]

lemma dropWhile_append_all {α : Type} (p : α → Bool) (xs ys : List α)
    (h : xs.all p = true) : (xs ++ ys).dropWhile p = ys.dropWhile p := by
  induction xs with
  | nil => simp
  | cons a as ih =>
    simp only [List.all_cons, Bool.and_eq_true] at h
    simp [List.dropWhile_cons, h.1, ih h.2]

lemma stripCommas_append (xs ys : List Char) :
    stripCommas (xs ++ ys) = stripCommas xs ++ stripCommas ys :=
  List.filter_append xs ys

lemma stripCommas_digits (l : List Char) (h : l.all Char.isDigit = true) :
    stripCommas l = l := by
  induction l with
  | nil => rfl
  | cons c tl ih =>
    simp only [List.all_cons, Bool.and_eq_true] at h
    have hne : (!decide (c = ',')) = true := by
      rw [decide_eq_false (isDigit_ne c h.1).1]; rfl
    have hcons : stripCommas (c :: tl) = c :: stripCommas tl := by
      simp only [stripCommas, List.filter_cons, hne, if_true]
    rw [hcons, ih h.2]

/-- Every alternative of `pGreedyPlus` consumes a non-empty run of matching
characters. -/
lemma pGreedyPlus_mem (p : Char → Bool) :
    ∀ l d r, (d, r) ∈ pGreedyPlus p l → d ≠ [] ∧ d.all p = true := by
  intro l
  induction l with
  | nil => intro d r h; simp [pGreedyPlus] at h
  | cons c rest ih =>
    intro d r h
    simp only [pGreedyPlus] at h
    split at h
    · rename_i hp
      rcases List.mem_append.mp h with h | h
      · obtain ⟨q, hq, heq⟩ := List.mem_map.mp h
        obtain ⟨h1, h2⟩ := ih q.1 q.2 hq
        cases heq
        refine ⟨by simp, ?_⟩
        simp only [List.all_cons, Bool.and_eq_true]
        exact ⟨hp, h2⟩
      · cases List.mem_singleton.mp h
        exact ⟨by simp, by simp [List.all_cons, hp]⟩
    · simp at h

/-- Every alternative of the comma-group star consumes groups whose comma-free
residue is all digits. -/
lemma pCommaGroups_mem :
    ∀ l g r, (g, r) ∈ pCommaGroups l → (stripCommas g).all Char.isDigit = true := by
  intro l
  induction l using pCommaGroups.induct with
  | case1 c a b d rest hcond ih =>
    intro g r h
    simp only [pCommaGroups] at h
    rw [if_pos hcond] at h
    simp only [Bool.and_eq_true, decide_eq_true_eq] at hcond
    obtain ⟨⟨⟨hc, ha⟩, hb⟩, hd⟩ := hcond
    rcases List.mem_append.mp h with h | h
    · obtain ⟨q, hq, heq⟩ := List.mem_map.mp h
      cases heq
      subst hc
      have hna : (!decide (a = ',')) = true := by
        rw [decide_eq_false (isDigit_ne a ha).1]; rfl
      have hnb : (!decide (b = ',')) = true := by
        rw [decide_eq_false (isDigit_ne b hb).1]; rfl
      have hnd : (!decide (d = ',')) = true := by
        rw [decide_eq_false (isDigit_ne d hd).1]; rfl
      have hstrip : stripCommas (',' :: a :: b :: d :: q.1) = a :: b :: d :: stripCommas q.1 := by
        simp [stripCommas, List.filter_cons, hna, hnb, hnd]
      simp only [hstrip, List.all_cons, Bool.and_eq_true]
      exact ⟨ha, hb, hd, ih q.1 q.2 hq⟩
    · cases List.mem_singleton.mp h
      rfl
  | case2 c a b d rest hcond =>
    intro g r h
    simp only [pCommaGroups] at h
    rw [if_neg hcond] at h
    cases List.mem_singleton.mp h
    rfl
  | case3 l hshape =>
    intro g r h
    rcases l with _ | ⟨c, _ | ⟨a, _ | ⟨b, _ | ⟨d, rest⟩⟩⟩⟩
    · rw [show pCommaGroups [] = [([], [])] from rfl] at h
      cases List.mem_singleton.mp h
      rfl
    · rw [show pCommaGroups [c] = [([], [c])] from rfl] at h
      cases List.mem_singleton.mp h
      rfl
    · rw [show pCommaGroups [c, a] = [([], [c, a])] from rfl] at h
      cases List.mem_singleton.mp h
      rfl
    · rw [show pCommaGroups [c, a, b] = [([], [c, a, b])] from rfl] at h
      cases List.mem_singleton.mp h
      rfl
    · exact absurd rfl (hshape c a b d rest)

/-- Every alternative of the optional fraction is empty or a dot followed by
two digits. -/
lemma pOptFrac_mem :
    ∀ l f r, (f, r) ∈ pOptFrac l →
      f = [] ∨ ∃ a b, f = ['.', a, b] ∧ a.isDigit = true ∧ b.isDigit = true := by
  intro l f r h
  rcases l with _ | ⟨c, _ | ⟨a, _ | ⟨b, rest⟩⟩⟩
  · rw [show pOptFrac [] = [([], [])] from rfl] at h
    cases List.mem_singleton.mp h
    exact Or.inl rfl
  · rw [show pOptFrac [c] = [([], [c])] from rfl] at h
    cases List.mem_singleton.mp h
    exact Or.inl rfl
  · rw [show pOptFrac [c, a] = [([], [c, a])] from rfl] at h
    cases List.mem_singleton.mp h
    exact Or.inl rfl
  · simp only [pOptFrac] at h
    split at h
    · rename_i hcond
      simp only [Bool.and_eq_true, decide_eq_true_eq] at hcond
      obtain ⟨⟨hc, ha⟩, hb⟩ := hcond
      subst hc
      rcases List.mem_cons.mp h with heq | h
      · cases heq
        exact Or.inr ⟨a, b, rfl, ha, hb⟩
      · cases List.mem_singleton.mp h
        exact Or.inl rfl
    · cases List.mem_singleton.mp h
      exact Or.inl rfl

/-- Shape of a `NUM` capture: a non-empty digit run, comma groups whose
comma-free residue is all digits, and an optional two-digit fraction. -/
def NumShape (t : List Char) : Prop :=
  ∃ d g f, t = d ++ g ++ f ∧ d ≠ [] ∧ d.all Char.isDigit = true ∧
    (stripCommas g).all Char.isDigit = true ∧
    (f = [] ∨ ∃ a b, f = ['.', a, b] ∧ a.isDigit = true ∧ b.isDigit = true)

/-- Every token produced by the `NUM` parser has `NumShape`. -/
lemma pNum_shape (l t r : List Char) (h : (t, r) ∈ pNum l) : NumShape t := by
  simp only [pNum, List.mem_flatMap, List.mem_map] at h
  obtain ⟨dp, hdp, gp, hgp, fp, hfp, heq⟩ := h
  cases heq
  exact ⟨dp.1, gp.1, fp.1, rfl,
    (pGreedyPlus_mem Char.isDigit l dp.1 dp.2 hdp).1,
    (pGreedyPlus_mem Char.isDigit l dp.1 dp.2 hdp).2,
    pCommaGroups_mem dp.2 gp.1 gp.2 hgp,
    pOptFrac_mem gp.2 fp.1 fp.2 hfp⟩

/-- `parseInt` succeeds on a non-empty all-digit capture. -/
lemma jsParseInt_digits (q : List Char) (h0 : q ≠ []) (hall : q.all Char.isDigit = true) :
    (jsParseInt q).isSome = true := by
  cases q with
  | nil => exact absurd rfl h0
  | cons c tl =>
    simp only [List.all_cons, Bool.and_eq_true] at hall
    obtain ⟨hc, htl⟩ := hall
    obtain ⟨hcm, hcd, hcmi, hcpl, hws⟩ := isDigit_ne c hc
    simp only [jsParseInt, List.dropWhile_cons, hws]
    simp [hcmi, hcpl, List.takeWhile_cons, hc]

/-- `parseFloat`'s core succeeds on `digits` or `digits.dd`. -/
lemma jsParseFloatCore_shape (dg f : List Char) (h0 : dg ≠ [])
    (hall : dg.all Char.isDigit = true)
    (hf : f = [] ∨ ∃ a b, f = ['.', a, b] ∧ a.isDigit = true ∧ b.isDigit = true) :
    (jsParseFloatCore (dg ++ f)).isSome = true := by
  have hip : (dg ++ f).takeWhile Char.isDigit = dg ++ f.takeWhile Char.isDigit :=
    takeWhile_append_all Char.isDigit dg f hall
  have hrest : (dg ++ f).dropWhile Char.isDigit = f.dropWhile Char.isDigit :=
    dropWhile_append_all Char.isDigit dg f hall
  have hdgne : (dg ++ f.takeWhile Char.isDigit).isEmpty = false := by
    cases dg with
    | nil => exact absurd rfl h0
    | cons c tl => rfl
  rcases hf with rfl | ⟨a, b, rfl, ha, hb⟩
  · simp only [jsParseFloatCore, hip, hrest]
    simp [hdgne, h0]
  · have hdot : Char.isDigit '.' = false := by decide
    simp only [jsParseFloatCore, hip, hrest]
    simp [List.takeWhile_cons, List.dropWhile_cons, hdot, ha, hb, hdgne]

/-- `parseFloat` succeeds on the comma-stripped form of any `NUM` capture. -/
lemma jsParseFloat_numShape (t : List Char) (h : NumShape t) :
    (jsParseFloat (stripCommas t)).isSome = true := by
  obtain ⟨d, g, f, rfl, h0, hdall, hgall, hf⟩ := h
  have hsd : stripCommas d = d := stripCommas_digits d hdall
  have hsf : stripCommas f = f := by
    rcases hf with rfl | ⟨a, b, rfl, ha, hb⟩
    · rfl
    · have hna : (!decide (a = ',')) = true := by
        rw [decide_eq_false (isDigit_ne a ha).1]; rfl
      have hnb : (!decide (b = ',')) = true := by
        rw [decide_eq_false (isDigit_ne b hb).1]; rfl
      simp [stripCommas, List.filter_cons, hna, hnb]
  rw [stripCommas_append, stripCommas_append, hsd, hsf]
  have hdgall : (d ++ stripCommas g).all Char.isDigit = true := by
    simp only [List.all_append, Bool.and_eq_true]
    exact ⟨hdall, hgall⟩
  have hdg0 : d ++ stripCommas g ≠ [] := by
    cases d with
    | nil => exact absurd rfl h0
    | cons c tl => simp
  obtain ⟨c, tl, hctl⟩ := List.exists_cons_of_ne_nil hdg0
  rw [hctl]
  rw [hctl] at hdgall
  simp only [List.all_cons, Bool.and_eq_true] at hdgall
  obtain ⟨hcd, htl⟩ := hdgall
  obtain ⟨hcm, hcdot, hcmi, hcpl, hws⟩ := isDigit_ne c hcd
  simp only [List.cons_append, jsParseFloat, List.dropWhile_cons, hws]
  simp only [if_false, Bool.false_eq_true]
  rw [if_neg hcmi, if_neg hcpl]
  rw [← List.cons_append]
  exact jsParseFloatCore_shape (c :: tl) f (by simp)
    (by simp only [List.all_cons, Bool.and_eq_true]; exact ⟨hcd, htl⟩) hf

/-- The head of a list is a member. -/
lemma mem_of_head {α : Type} (l : List α) (a : α) (h : l.head? = some a) : a ∈ l := by
  cases l with
  | nil => cases h
  | cons b bs =>
    have hb : b = a := by simpa using h
    subst hb
    exact List.mem_cons_self b bs

/-- Captures of any whitespace-pattern match: the quantity is a non-empty
digit run and both money captures have `NumShape`. -/
lemma lineItemMatches_shape (l : List Char)
    (m : List Char × List Char × List Char × List Char) (hm : m ∈ lineItemMatches l) :
    (m.2.1 ≠ [] ∧ m.2.1.all Char.isDigit = true) ∧ NumShape m.2.2.1 ∧ NumShape m.2.2.2 := by
  simp only [lineItemMatches, List.mem_flatMap, List.mem_filterMap] at hm
  obtain ⟨dp, hdp, w1, hw1, qp, hqp, w2, hw2, dol1, hdol1, w3, hw3, pp, hpp,
    w4, hw4, dol2, hdol2, w5, hw5, ap, hap, heq⟩ := hm
  split at heq
  · cases Option.some.inj heq
    exact ⟨⟨(pGreedyPlus_mem Char.isDigit w1.2 qp.1 qp.2 hqp).1,
            (pGreedyPlus_mem Char.isDigit w1.2 qp.1 qp.2 hqp).2⟩,
           pNum_shape w3.2 pp.1 pp.2 hpp,
           pNum_shape w5.2 ap.1 ap.2 hap⟩
  · exact Option.noConfusion heq

/-- Captures of any comma-pattern match: same shape guarantees. -/
lemma lineItemCommaMatches_shape (l : List Char)
    (m : List Char × List Char × List Char × List Char) (hm : m ∈ lineItemCommaMatches l) :
    (m.2.1 ≠ [] ∧ m.2.1.all Char.isDigit = true) ∧ NumShape m.2.2.1 ∧ NumShape m.2.2.2 := by
  simp only [lineItemCommaMatches, List.mem_flatMap, List.mem_filterMap] at hm
  obtain ⟨dp, hdp, c1, hc1, w1, hw1, qp, hqp, c2, hc2, w2, hw2, dol1, hdol1,
    w3, hw3, pp, hpp, c3, hc3, w4, hw4, dol2, hdol2, w5, hw5, ap, hap, heq⟩ := hm
  split at heq
  · cases Option.some.inj heq
    exact ⟨⟨(pGreedyPlus_mem Char.isDigit w1.2 qp.1 qp.2 hqp).1,
            (pGreedyPlus_mem Char.isDigit w1.2 qp.1 qp.2 hqp).2⟩,
           pNum_shape w3.2 pp.1 pp.2 hpp,
           pNum_shape w5.2 ap.1 ap.2 hap⟩
  · exact Option.noConfusion heq

/-- Captures of whichever pattern matched a line. -/
lemma matchEither_shape (line : List Char)
    (m : List Char × List Char × List Char × List Char) (h : matchEither line = some m) :
    (m.2.1 ≠ [] ∧ m.2.1.all Char.isDigit = true) ∧ NumShape m.2.2.1 ∧ NumShape m.2.2.2 := by
  unfold matchEither at h
  cases hws : matchLineItem line with
  | some m0 =>
    rw [hws] at h
    cases Option.some.inj h
    exact lineItemMatches_shape line m (mem_of_head _ m hws)
  | none =>
    rw [hws] at h
    exact lineItemCommaMatches_shape line m (mem_of_head _ m h)

/-- C10.  Every line matched by either line-item pattern has a quantity
capture that `parseInt` accepts and unit-price/amount captures that
`parseFloat` accepts after comma-stripping — none of the three parses is
`NaN` — and therefore the numeric-validation rejection branch of
`extractLineItems` is unreachable: the function agrees everywhere with the
variant that accepts every pattern-matched line unconditionally. -/
theorem extractLineItems_no_nan :
    (∀ line m, matchEither line = some m →
      (jsParseInt m.2.1).isSome = true ∧
      (jsParseFloat (stripCommas m.2.2.1)).isSome = true ∧
      (jsParseFloat (stripCommas m.2.2.2)).isSome = true) ∧
    ∀ text, extractLineItems text = extractLineItemsNoCheck text := by
  have main : ∀ line m, matchEither line = some m →
      (jsParseInt m.2.1).isSome = true ∧
      (jsParseFloat (stripCommas m.2.2.1)).isSome = true ∧
      (jsParseFloat (stripCommas m.2.2.2)).isSome = true := by
    intro line m hm
    obtain ⟨⟨hq0, hqd⟩, hp, ha⟩ := matchEither_shape line m hm
    exact ⟨jsParseInt_digits m.2.1 hq0 hqd, jsParseFloat_numShape m.2.2.1 hp,
           jsParseFloat_numShape m.2.2.2 ha⟩
  refine ⟨main, ?_⟩
  intro text
  unfold extractLineItems extractLineItemsNoCheck
  refine List.filterMap_congr ?_
  intro line _
  cases hm : matchEither line with
  | none => rfl
  | some m =>
    obtain ⟨h1, h2, h3⟩ := main line m hm
    rw [Option.isSome_iff_exists] at h1 h2 h3
    obtain ⟨qv, hqv⟩ := h1
    obtain ⟨uv, huv⟩ := h2
    obtain ⟨av, hav⟩ := h3
    simp [hqv, huv, hav]

/-- Witness for C10 at a concrete matched line. -/
theorem extractLineItems_no_nan_witness :
    matchEither ("A  1  2.00  4.00".toList) =
      some (['A'], ['1'], ['2', '.', '0', '0'], ['4', '.', '0', '0']) ∧
    (jsParseInt ['1']).isSome = true ∧
    (jsParseFloat (stripCommas ['2', '.', '0', '0'])).isSome = true ∧
    (jsParseFloat (stripCommas ['4', '.', '0', '0'])).isSome = true :=
  ⟨by decide,
   (extractLineItems_no_nan.1 ("A  1  2.00  4.00".toList)
      (['A'], ['1'], ['2', '.', '0', '0'], ['4', '.', '0', '0']) (by decide)).1,
   (extractLineItems_no_nan.1 ("A  1  2.00  4.00".toList)
      (['A'], ['1'], ['2', '.', '0', '0'], ['4', '.', '0', '0']) (by decide)).2.1,
   (extractLineItems_no_nan.1 ("A  1  2.00  4.00".toList)
      (['A'], ['1'], ['2', '.', '0', '0'], ['4', '.', '0', '0']) (by decide)).2.2⟩

end PDFProcessor
